import Mathlib

/-!
# Verification of the tipsio menu digitization core

Shallow embedding of the publish invariant enforcer (`src/lib/menu-service.ts`),
the OCR result normalizer, JSON recovery parser, schema validators and retry
controllers (`src/lib/menu-ai.ts`).

JSON values are modelled by an inductive `Json` type (numbers as rationals,
objects as insertion-ordered key/value lists).  Database state for the publish
operation is a list of job records; the Prisma transaction is modelled as a
state transformer that leaves the state unchanged when the body throws.
-/

set_option maxRecDepth 16384

namespace Tipsio

/-! ## Publish invariant enforcer (`menu-service.ts`) -/

/-- A `MenuDigitizationJob` row, restricted to the fields touched by
`publishMenuJob`. `publishedAt` is an abstract timestamp. -/
structure Job where
  id : String
  venueId : String
  isPublished : Bool
  publishedAt : Option Nat
deriving Repr, DecidableEq

/-- Effect of `tx.menuDigitizationJob.updateMany({where: {venueId, isPublished: true},
data: {isPublished: false}})` on a single row. -/
def unpubF (venueId : String) (j : Job) : Job :=
  if j.venueId = venueId ∧ j.isPublished = true then { j with isPublished := false } else j

/-- Effect of `tx.menuDigitizationJob.update({where: {id: jobId},
data: {isPublished: true, publishedAt: new Date()}})` on the matching row. -/
def pubF (jobId : String) (now : Nat) (j : Job) : Job :=
  if j.id = jobId then { j with isPublished := true, publishedAt := some now } else j

/-- Step 1 of the transaction body: unpublish every published job of the venue. -/
def updateManyUnpublish (venueId : String) (db : List Job) : List Job :=
  db.map (unpubF venueId)

/-- Prisma `update` by unique id: `none` models the P2025 "record not found"
throw, which aborts the surrounding transaction; otherwise the updated row is
applied and returned. -/
def prismaUpdatePublish (db : List Job) (jobId : String) (now : Nat) :
    Option (List Job × Job) :=
  match db.find? (fun j => j.id = jobId) with
  | none => none
  | some j0 => some (db.map (pubF jobId now), pubF jobId now j0)

/-- The `$transaction` callback of `publishMenuJob`: unpublish the venue's
published jobs, then publish the target; returns the updated job's
`publishedAt`.  `none` models a thrown error. -/
def publishBody (venueId jobId : String) (now : Nat) (db : List Job) :
    Option (List Job × Option Nat) :=
  let db1 := updateManyUnpublish venueId db
  (prismaUpdatePublish db1 jobId now).map (fun r => (r.1, r.2.publishedAt))

/-- `prisma.$transaction`: if the body throws, no change to the database is
observed; otherwise the body's final state is committed. -/
def runTransaction {α : Type} (db : List Job) (body : List Job → Option (List Job × α)) :
    List Job × Option α :=
  match body db with
  | some (db2, a) => (db2, some a)
  | none => (db, none)

/-- `publishMenuJob(prisma, venueId, jobId)`: the whole operation.  The second
component is `none` when the transaction failed (target id not found). -/
def publishMenuJob (db : List Job) (venueId jobId : String) (now : Nat) :
    List Job × Option (Option Nat) :=
  runTransaction db (publishBody venueId jobId now)

/-- A sequence of `publishMenuJob` calls for one venue, each call carrying its
target job id and timestamp. -/
def publishSeq (venueId : String) (db : List Job) (calls : List (String × Nat)) : List Job :=
  calls.foldl (fun d c => (publishMenuJob d venueId c.1 c.2).1) db

/-! Basic invariance lemmas for the publish operation. -/

theorem unpubF_id (v : String) (j : Job) : (unpubF v j).id = j.id := by
  unfold unpubF; split <;> rfl

theorem unpubF_venueId (v : String) (j : Job) : (unpubF v j).venueId = j.venueId := by
  unfold unpubF; split <;> rfl

theorem pubF_id (t : String) (now : Nat) (j : Job) : (pubF t now j).id = j.id := by
  unfold pubF; split <;> rfl

theorem pubF_venueId (t : String) (now : Nat) (j : Job) :
    (pubF t now j).venueId = j.venueId := by
  unfold pubF; split <;> rfl

/-- Membership in the post-state corresponds to membership in the pre-state
composed with the two row updates (success case). -/
theorem publish_success_state (db : List Job) (v t : String) (now : Nat)
    (ht : t ∈ db.map Job.id) :
    (publishMenuJob db v t now).1 = db.map (fun j => pubF t now (unpubF v j)) := by
  unfold publishMenuJob runTransaction publishBody
  have hsome : ((updateManyUnpublish v db).find? (fun j => j.id = t)).isSome := by
    rw [List.find?_isSome]
    obtain ⟨j, hj, hid⟩ := List.mem_map.mp ht
    exact ⟨unpubF v j, List.mem_map_of_mem _ hj, by simp [unpubF_id, hid]⟩
  cases hfind : (updateManyUnpublish v db).find? (fun j => j.id = t) with
  | none => rw [hfind] at hsome; simp at hsome
  | some j0 =>
      simp only [updateManyUnpublish] at hfind
      simp only [prismaUpdatePublish, updateManyUnpublish, hfind, Option.map_some,
        List.map_map]
      rfl

/-- Failure case: the target id does not occur, the state is unchanged. -/
theorem publish_failure_state (db : List Job) (v t : String) (now : Nat)
    (ht : t ∉ db.map Job.id) :
    publishMenuJob db v t now = (db, none) := by
  unfold publishMenuJob runTransaction publishBody
  have hnone : (updateManyUnpublish v db).find? (fun j => j.id = t) = none := by
    rw [List.find?_eq_none]
    intro j hj
    obtain ⟨j0, hj0, rfl⟩ := List.mem_map.mp hj
    simp only [decide_eq_true_eq]
    intro hid
    exact ht (List.mem_map.mpr ⟨j0, hj0, by rw [← unpubF_id v j0, hid]⟩)
  simp only [updateManyUnpublish] at hnone
  simp [prismaUpdatePublish, updateManyUnpublish, hnone]

/-- The database after a publish call has the same ids, in the same positions. -/
theorem publish_map_id (db : List Job) (v t : String) (now : Nat) :
    ((publishMenuJob db v t now).1).map Job.id = db.map Job.id := by
  by_cases ht : t ∈ db.map Job.id
  · rw [publish_success_state db v t now ht, List.map_map]
    apply List.map_congr_left
    intro a _
    simp [Function.comp, pubF_id, unpubF_id]
  · rw [publish_failure_state db v t now ht]

/-- The database after a publish call has the same venue ids, in the same
positions. -/
theorem publish_map_venueId (db : List Job) (v t : String) (now : Nat) :
    ((publishMenuJob db v t now).1).map Job.venueId = db.map Job.venueId := by
  by_cases ht : t ∈ db.map Job.id
  · rw [publish_success_state db v t now ht, List.map_map]
    apply List.map_congr_left
    intro a _
    simp [Function.comp, pubF_venueId, unpubF_venueId]
  · rw [publish_failure_state db v t now ht]

/-- After a successful publish, every published job belonging to the venue is
the target: step 1 unpublished the venue's jobs, step 2 republished only the
target. -/
theorem publish_published_is_target (db : List Job) (v t : String) (now : Nat)
    (ht : t ∈ db.map Job.id) :
    ∀ j ∈ (publishMenuJob db v t now).1, j.venueId = v → j.isPublished = true → j.id = t := by
  rw [publish_success_state db v t now ht]
  intro j hj hven hpub
  obtain ⟨j0, hj0, rfl⟩ := List.mem_map.mp hj
  by_cases hid : (unpubF v j0).id = t
  · rw [pubF_id]; exact hid
  · exfalso
    unfold pubF at hpub hven
    rw [if_neg hid] at hpub hven
    unfold unpubF at hpub hven
    by_cases hc : j0.venueId = v ∧ j0.isPublished = true
    · rw [if_pos hc] at hpub; simp at hpub
    · rw [if_neg hc] at hpub hven
      exact hc ⟨hven, hpub⟩

/-- If every `p`-job of a list with duplicate-free ids carries the same id `t`,
at most one job satisfies `p`. -/
theorem countP_le_one_of_all_target (p : Job → Bool) (l : List Job) (t : String)
    (hnd : (l.map Job.id).Nodup)
    (h : ∀ j ∈ l, p j = true → j.id = t) :
    l.countP p ≤ 1 := by
  induction l with
  | nil => simp
  | cons a l ih =>
      rw [List.map_cons, List.nodup_cons] at hnd
      by_cases ha : p a = true
      · rw [List.countP_cons_of_pos _ _ ha]
        have hzero : l.countP p = 0 := by
          rw [List.countP_eq_zero]
          intro j hj hpj
          have h1 : j.id = t := h j (List.mem_cons_of_mem a hj) hpj
          have h2 : a.id = t := h a (List.mem_cons_self a l) ha
          exact hnd.1 (h2 ▸ h1 ▸ List.mem_map_of_mem Job.id hj)
        omega
      · rw [List.countP_cons_of_neg _ _ (by simpa using ha)]
        exact ih hnd.2 (fun j hj => h j (List.mem_cons_of_mem a hj))

/-- On success the transaction returns the target's fresh `publishedAt`. -/
theorem publish_result_of_mem (db : List Job) (v t : String) (now : Nat)
    (ht : t ∈ db.map Job.id) :
    (publishMenuJob db v t now).2 = some (some now) := by
  unfold publishMenuJob runTransaction publishBody
  have hsome : ((updateManyUnpublish v db).find? (fun j => j.id = t)).isSome := by
    rw [List.find?_isSome]
    obtain ⟨j, hj, hid⟩ := List.mem_map.mp ht
    exact ⟨unpubF v j, List.mem_map_of_mem _ hj, by simp [unpubF_id, hid]⟩
  cases hfind : (updateManyUnpublish v db).find? (fun j => j.id = t) with
  | none => rw [hfind] at hsome; simp at hsome
  | some j0 =>
      have hid : j0.id = t := by simpa using List.find?_some hfind
      simp only [updateManyUnpublish] at hfind
      simp only [prismaUpdatePublish, updateManyUnpublish, hfind, Option.map_some]
      simp [pubF, hid]

/-- Venue ids are preserved: every job in the post-state has the venue id of
some job of the pre-state. -/
theorem publish_venue_all (db : List Job) (v₀ v t : String) (now : Nat)
    (hall : ∀ j ∈ db, j.venueId = v₀) :
    ∀ j ∈ (publishMenuJob db v t now).1, j.venueId = v₀ := by
  intro j hj
  have h1 : j.venueId ∈ ((publishMenuJob db v t now).1).map Job.venueId :=
    List.mem_map_of_mem Job.venueId hj
  rw [publish_map_venueId] at h1
  obtain ⟨j0, hj0, hEq⟩ := List.mem_map.mp h1
  rw [← hEq]
  exact hall j0 hj0

/-- Invariant carried through a sequence of publish calls for one venue: after
each call, at most one job is published and every published job is the most
recent target.  (Holds from any starting publish state.) -/
theorem publish_seq_invariant (v : String) (db : List Job) (calls : List (String × Nat))
    (hven : ∀ j ∈ db, j.venueId = v)
    (hids : ∀ c ∈ calls, c.1 ∈ db.map Job.id)
    (hnd : (db.map Job.id).Nodup) :
    ∀ k (hk : k < calls.length),
      ((publishSeq v db (calls.take (k+1))).countP (fun j => j.isPublished) ≤ 1) ∧
      (∀ j ∈ publishSeq v db (calls.take (k+1)), j.isPublished = true →
        j.id = (calls.get ⟨k, hk⟩).1) := by
  induction calls generalizing db with
  | nil => intro k hk; exact absurd hk (by simp)
  | cons c rest ih =>
      intro k hk
      have hstep : ∀ l, publishSeq v db (c :: l) =
          publishSeq v ((publishMenuJob db v c.1 c.2).1) l := fun l => rfl
      have hc1 : c.1 ∈ db.map Job.id := hids c (List.mem_cons_self c rest)
      have hven1 : ∀ j ∈ (publishMenuJob db v c.1 c.2).1, j.venueId = v :=
        publish_venue_all db v v c.1 c.2 hven
      have hmapid : ((publishMenuJob db v c.1 c.2).1).map Job.id = db.map Job.id :=
        publish_map_id db v c.1 c.2
      cases k with
      | zero =>
          rw [List.take_succ_cons, List.take_zero, hstep]
          have htgt : ∀ j ∈ (publishMenuJob db v c.1 c.2).1, j.isPublished = true →
              j.id = c.1 := by
            intro j hj hpub
            exact publish_published_is_target db v c.1 c.2 hc1 j hj (hven1 j hj) hpub
          refine ⟨?_, ?_⟩
          · exact countP_le_one_of_all_target _ _ c.1 (hmapid ▸ hnd) htgt
          · intro j hj hpub
            simpa using htgt j hj hpub
      | succ k' =>
          rw [List.take_succ_cons, hstep]
          have hk' : k' < rest.length := by simpa using hk
          have := ih ((publishMenuJob db v c.1 c.2).1) hven1
            (fun c' hc' => hmapid ▸ hids c' (List.mem_cons_of_mem c hc'))
            (hmapid ▸ hnd) k' hk'
          simpa using this

/-- C1: for every venue and every sequence of `publishMenuJob` calls against a
set of that venue's jobs (all initially unpublished; every target id present),
after each call at most one job is published and every published job is the
target of the most recent call. -/
theorem publishMenuJob_single_published_invariant
    (v : String) (db : List Job) (calls : List (String × Nat))
    (hven : ∀ j ∈ db, j.venueId = v)
    (hunpub : ∀ j ∈ db, j.isPublished = false)
    (hids : ∀ c ∈ calls, c.1 ∈ db.map Job.id)
    (hnd : (db.map Job.id).Nodup) :
    ∀ k (hk : k < calls.length),
      ((publishSeq v db (calls.take (k+1))).countP (fun j => j.isPublished) ≤ 1) ∧
      (∀ j ∈ publishSeq v db (calls.take (k+1)), j.isPublished = true →
        j.id = (calls.get ⟨k, hk⟩).1) :=
  publish_seq_invariant v db calls hven hids hnd

def dbC1 : List Job :=
  [⟨"a", "v", false, none⟩, ⟨"b", "v", false, none⟩]

def callsC1 : List (String × Nat) := [("a", 1), ("b", 2)]

/-- Witness for C1 at a concrete two-job venue and a two-call sequence. -/
theorem publishMenuJob_single_published_invariant_witness :
    ((publishSeq "v" dbC1 (callsC1.take 2)).countP (fun j => j.isPublished) ≤ 1) ∧
    (∀ j ∈ publishSeq "v" dbC1 (callsC1.take 2), j.isPublished = true →
      j.id = (callsC1.get ⟨1, by decide⟩).1) :=
  publishMenuJob_single_published_invariant "v" dbC1 callsC1
    (by decide) (by decide) (by decide) (by decide) 1 (by decide)

/-- C2: `publishMenuJob` is atomic.  If the transaction fails (the target id
does not exist) the state is unchanged; if it succeeds, exactly one job of the
venue is published — the target — and its fresh `publishedAt` is returned.
The caller guarantees the target belongs to the venue (`hv`); ids are unique. -/
theorem publishMenuJob_atomic (db : List Job) (v t : String) (now : Nat)
    (hnd : (db.map Job.id).Nodup)
    (hv : ∀ j ∈ db, j.id = t → j.venueId = v) :
    ((publishMenuJob db v t now).2 = none →
      (publishMenuJob db v t now).1 = db ∧ t ∉ db.map Job.id) ∧
    (∀ r, (publishMenuJob db v t now).2 = some r →
      r = some now ∧
      (publishMenuJob db v t now).1.countP
        (fun j => decide (j.venueId = v) && j.isPublished) = 1 ∧
      ∀ j ∈ (publishMenuJob db v t now).1, j.venueId = v → j.isPublished = true →
        j.id = t) := by
  by_cases ht : t ∈ db.map Job.id
  · have hres := publish_result_of_mem db v t now ht
    constructor
    · intro hnone; rw [hres] at hnone; cases hnone
    · intro r hr
      rw [hres] at hr
      injection hr with hr
      refine ⟨hr.symm, ?_, fun j hj => publish_published_is_target db v t now ht j hj⟩
      have hle : (publishMenuJob db v t now).1.countP
          (fun j => decide (j.venueId = v) && j.isPublished) ≤ 1 := by
        apply countP_le_one_of_all_target _ _ t (publish_map_id db v t now ▸ hnd)
        intro j hj hpj
        obtain ⟨h1, h2⟩ := Bool.and_eq_true_iff.mp hpj
        exact publish_published_is_target db v t now ht j hj
          (of_decide_eq_true h1) h2
      have hpos : 0 < (publishMenuJob db v t now).1.countP
          (fun j => decide (j.venueId = v) && j.isPublished) := by
        rw [List.countP_pos_iff]
        obtain ⟨j0, hj0, hid⟩ := List.mem_map.mp ht
        refine ⟨pubF t now (unpubF v j0), ?_, ?_⟩
        · rw [publish_success_state db v t now ht]
          exact List.mem_map_of_mem _ hj0
        · have hidt : (unpubF v j0).id = t := by rw [unpubF_id]; exact hid
          have hv0 : j0.venueId = v := hv j0 hj0 hid
          simp [pubF, hidt, unpubF_venueId, hv0]
      omega
  · rw [publish_failure_state db v t now ht]
    exact ⟨fun _ => ⟨rfl, ht⟩, fun r hr => by cases hr⟩

def dbC2 : List Job := [⟨"a", "v", true, some 3⟩, ⟨"b", "v", false, none⟩]

/-- Witness for C2: publishing job `b` over a venue where `a` was published,
and a failing publish of a missing id leaving the state unchanged. -/
theorem publishMenuJob_atomic_witness :
    ((publishMenuJob dbC2 "v" "b" 7).2 = none →
      (publishMenuJob dbC2 "v" "b" 7).1 = dbC2 ∧ "b" ∉ dbC2.map Job.id) ∧
    (∀ r, (publishMenuJob dbC2 "v" "b" 7).2 = some r →
      r = some 7 ∧
      (publishMenuJob dbC2 "v" "b" 7).1.countP
        (fun j => decide (j.venueId = "v") && j.isPublished) = 1 ∧
      ∀ j ∈ (publishMenuJob dbC2 "v" "b" 7).1, j.venueId = "v" →
        j.isPublished = true → j.id = "b") :=
  publishMenuJob_atomic dbC2 "v" "b" 7 (by decide) (by decide)

/-- C10: frame property of `publishMenuJob`.  (1) Every job of another venue
that is not the target is untouched (same position, same record).  (2) The
target is updated by id alone — no venue-membership check — so a target from
another venue is published while that venue's published jobs are untouched. -/
theorem publishMenuJob_frame (db : List Job) (v t : String) (now : Nat) :
    (∀ (i : Nat) (j : Job), db[i]? = some j → j.venueId ≠ v → j.id ≠ t →
      ((publishMenuJob db v t now).1)[i]? = some j) ∧
    (∀ (i : Nat) (j : Job), db[i]? = some j → j.id = t →
      ∃ j', ((publishMenuJob db v t now).1)[i]? = some j' ∧
        j'.isPublished = true ∧ j'.id = t ∧ j'.venueId = j.venueId ∧
        j'.publishedAt = some now) := by
  constructor
  · intro i j hij hven hid
    by_cases ht : t ∈ db.map Job.id
    · rw [publish_success_state db v t now ht, List.getElem?_map, hij,
        Option.map_some']
      have h1 : unpubF v j = j := by unfold unpubF; rw [if_neg]; simp [hven]
      have h2 : pubF t now j = j := by unfold pubF; rw [if_neg]; simp [hid]
      rw [h1, h2]
    · rw [publish_failure_state db v t now ht]
      exact hij
  · intro i j hij hid
    have ht : t ∈ db.map Job.id :=
      hid ▸ List.mem_map_of_mem Job.id (List.getElem?_mem hij)
    refine ⟨pubF t now (unpubF v j), ?_, ?_⟩
    · rw [publish_success_state db v t now ht, List.getElem?_map, hij,
        Option.map_some']
    · have hidt : (unpubF v j).id = t := by rw [unpubF_id]; exact hid
      simp [pubF, hidt, unpubF_venueId]

def dbC10 : List Job := [⟨"a", "w", true, some 5⟩, ⟨"b", "w", false, none⟩]

/-- Witness for C10: publishing `b` "for" venue `v` while `b` actually belongs
to venue `w` leaves `w`'s published job `a` published and also publishes `b`. -/
theorem publishMenuJob_frame_witness :
    ((publishMenuJob dbC10 "v" "b" 7).1)[0]? = some ⟨"a", "w", true, some 5⟩ ∧
    ∃ j', ((publishMenuJob dbC10 "v" "b" 7).1)[1]? = some j' ∧
      j'.isPublished = true ∧ j'.id = "b" ∧ j'.venueId = "w" ∧
      j'.publishedAt = some 7 := by
  refine ⟨(publishMenuJob_frame dbC10 "v" "b" 7).1 0 ⟨"a", "w", true, some 5⟩
    (by decide) (by decide) (by decide), ?_⟩
  have h := (publishMenuJob_frame dbC10 "v" "b" 7).2 1 ⟨"b", "w", false, none⟩
    (by decide) (by decide)
  simpa using h

/-! ## JSON values and JavaScript string helpers (`menu-ai.ts`) -/

/-- Parsed JSON values.  Numbers are rationals (the claims only exercise
values JavaScript numbers represent exactly); objects are insertion-ordered
key/value lists. -/
inductive Json where
  | null : Json
  | bool : Bool → Json
  | num : Rat → Json
  | str : String → Json
  | arr : List Json → Json
  | obj : List (String × Json) → Json
deriving Repr

/-- The whitespace class trimmed by JavaScript `String.prototype.trim`
(restricted to its ASCII members, the only ones reachable here). -/
def isJsWhitespace (c : Char) : Bool :=
  c = ' ' || c = '\t' || c = '\n' || c = '\r' || c = '\x0b' || c = '\x0c'

/-- `trim()` on a character list: drop whitespace at both ends. -/
def trimChars (cs : List Char) : List Char :=
  ((cs.dropWhile isJsWhitespace).reverse.dropWhile isJsWhitespace).reverse

/-- JavaScript `s.trim()`. -/
def jsTrim (s : String) : String :=
  String.mk (trimChars s.data)

/-- Split on `'\n'` (the `\n` of the splitting regex `/\r?\n/`). -/
def splitOnNewline : List Char → List (List Char)
  | [] => [[]]
  | '\n' :: rest => [] :: splitOnNewline rest
  | c :: rest =>
      match splitOnNewline rest with
      | [] => [[c]]
      | l :: ls => (c :: l) :: ls

/-- Remove the optional `'\r'` before the `'\n'` matched by `/\r?\n/`. -/
def dropTrailingCR (cs : List Char) : List Char :=
  match cs.getLast? with
  | some '\r' => cs.dropLast
  | _ => cs

/-- `normalizeTextToLines`: split on `/\r?\n/`, trim each line, drop empties. -/
def normalizeTextToLines (s : String) : List String :=
  ((((splitOnNewline s.data).map dropTrailingCR).map
      (fun cs => String.mk (trimChars cs))).filter (fun l => l.length > 0))

/-- Rendering of a JavaScript number.  Exact for integers (the only values the
claims exercise through stringification); non-integers use a `num/den` form. -/
def ratToString (q : Rat) : String :=
  if q.den = 1 then toString q.num else toString q.num ++ "/" ++ toString q.den

mutual

/-- JavaScript `String(v)` on a JSON value. -/
def jsToString : Json → String
  | .null => "null"
  | .bool true => "true"
  | .bool false => "false"
  | .num q => ratToString q
  | .str s => s
  | .arr a => jsToStringList a
  | .obj _ => "[object Object]"

/-- JavaScript array-to-string: elements joined by `','`, `null` as empty. -/
def jsToStringList : List Json → String
  | [] => ""
  | [.null] => ""
  | [e] => jsToString e
  | .null :: rest => "," ++ jsToStringList rest
  | e :: rest => jsToString e ++ "," ++ jsToStringList rest

end

/-- `arr.map(v => String(v)).map(l => l.trim()).filter(l => l.length > 0)`. -/
def stringifyLines (a : List Json) : List String :=
  (((a.map jsToString).map jsTrim).filter (fun l => l.length > 0))

/-- A JavaScript number that is not NaN: a finite value or a signed
infinity.  Finite values are carried exactly as rationals; where JavaScript
would round a literal to the nearest binary double the model keeps the exact
value, which can only differ on integrality for magnitudes ≥ 2^52 — there the
model classifies a non-integral exact value as non-integral although its
nearest double may be integral, narrowing (never widening) the provisos
below. -/
inductive JsNumber where
  | finite (q : Rat)
  | posInf
  | negInf
deriving Repr, DecidableEq

/-- Accumulate a decimal digit string. -/
def digitsVal (cs : List Char) : Nat :=
  cs.foldl (fun acc c => acc * 10 + (c.toNat - '0'.toNat)) 0

def hexDigitVal (c : Char) : Option Nat :=
  if '0' ≤ c ∧ c ≤ '9' then some (c.toNat - '0'.toNat)
  else if 'a' ≤ c ∧ c ≤ 'f' then some (c.toNat - 'a'.toNat + 10)
  else if 'A' ≤ c ∧ c ≤ 'F' then some (c.toNat - 'A'.toNat + 10)
  else none

def octDigitVal (c : Char) : Option Nat :=
  if '0' ≤ c ∧ c ≤ '7' then some (c.toNat - '0'.toNat) else none

def binDigitVal (c : Char) : Option Nat :=
  if c = '0' then some 0 else if c = '1' then some 1 else none

def radixValAux (base : Nat) (digVal : Char → Option Nat) (acc : Nat) :
    List Char → Option Nat
  | [] => some acc
  | c :: rest =>
      match digVal c with
      | some d => radixValAux base digVal (acc * base + d) rest
      | none => none

/-- The value of a non-empty digit string in the given radix. -/
def radixVal (base : Nat) (digVal : Char → Option Nat) (cs : List Char) : Option Nat :=
  if cs.isEmpty then none else radixValAux base digVal 0 cs

/-- Decimal mantissa `digits [. digits]` (at least one digit overall),
returning its exact value and the unconsumed remainder.  (Arithmetic is done
on integers and packaged with `Rat.divInt`, which the kernel evaluates.) -/
def parseDecMantissa (cs : List Char) : Option (Rat × List Char) :=
  let intPart := cs.takeWhile Char.isDigit
  let rest := cs.drop intPart.length
  match rest with
  | '.' :: rest2 =>
      let frac := rest2.takeWhile Char.isDigit
      let rest3 := rest2.drop frac.length
      if intPart.isEmpty && frac.isEmpty then none
      else some (Rat.divInt
        ((digitsVal intPart * 10 ^ frac.length + digitsVal frac : Nat) : Int)
        ((10 ^ frac.length : Nat) : Int), rest3)
  | _ => if intPart.isEmpty then none else some ((digitsVal intPart : Rat), rest)

/-- The optional exponent part `[eE][+-]?digits` applied to the mantissa; the
whole remainder must be consumed. -/
def applyDecExponent (m : Rat) (cs : List Char) : Option Rat :=
  match cs with
  | [] => some m
  | e :: rest =>
      if e = 'e' ∨ e = 'E' then
        match rest with
        | '+' :: ds =>
            if ds.isEmpty || !ds.all Char.isDigit then none
            else some (Rat.divInt (m.num * ((10 ^ digitsVal ds : Nat) : Int)) (m.den : Int))
        | '-' :: ds =>
            if ds.isEmpty || !ds.all Char.isDigit then none
            else some (Rat.divInt m.num ((m.den * 10 ^ digitsVal ds : Nat) : Int))
        | ds =>
            if ds.isEmpty || !ds.all Char.isDigit then none
            else some (Rat.divInt (m.num * ((10 ^ digitsVal ds : Nat) : Int)) (m.den : Int))
      else none

/-- An unsigned decimal literal with optional fraction and exponent. -/
def parseDecimal (cs : List Char) : Option Rat :=
  match parseDecMantissa cs with
  | none => none
  | some (m, rest) => applyDecExponent m rest

/-- The IEEE-754 double overflow boundary: round-to-nearest-even sends every
magnitude ≥ 2^1024 − 2^970 (the midpoint above the largest finite double) to
infinity. -/
def ieeeOverflowBoundary : Rat := ((2 ^ 1024 - 2 ^ 970 : Nat) : Rat)

/-- Classify an exact value as the double it converts to: finite or ±∞. -/
def jsFromRat (q : Rat) : JsNumber :=
  if ieeeOverflowBoundary ≤ q then .posInf
  else if q ≤ -ieeeOverflowBoundary then .negInf
  else .finite q

/-- An unsigned `StringNumericLiteral`: `Infinity`, a hex / octal / binary
literal, or a decimal literal. -/
def parseUnsignedJsNumber (cs : List Char) : Option JsNumber :=
  if cs = "Infinity".data then some .posInf
  else
    match cs with
    | '0' :: c :: rest =>
        if c = 'x' ∨ c = 'X' then (radixVal 16 hexDigitVal rest).map (fun n => jsFromRat n)
        else if c = 'o' ∨ c = 'O' then (radixVal 8 octDigitVal rest).map (fun n => jsFromRat n)
        else if c = 'b' ∨ c = 'B' then (radixVal 2 binDigitVal rest).map (fun n => jsFromRat n)
        else (parseDecimal cs).map jsFromRat
    | _ => (parseDecimal cs).map jsFromRat

/-- JavaScript `Number(s)` on a string: trim, empty is 0, an optional sign
followed by `Infinity` or a decimal literal (a sign never precedes a radix
prefix), or an unsigned numeric literal; anything else is NaN (`none`). -/
def jsNumberOfString (s : String) : Option JsNumber :=
  match trimChars s.data with
  | [] => some (.finite 0)
  | '+' :: rest =>
      if rest = "Infinity".data then some .posInf
      else (parseDecimal rest).map jsFromRat
  | '-' :: rest =>
      if rest = "Infinity".data then some .negInf
      else (parseDecimal rest).map (fun q => jsFromRat (-q))
  | cs => parseUnsignedJsNumber cs

/-- Comparator order on non-NaN numbers (`ai - bi < 0`; an infinite
difference of equal infinities is NaN, which the sort treats as 0). -/
def jsNumLt (a b : JsNumber) : Bool :=
  match a, b with
  | .finite x, .finite y => decide (x < y)
  | .negInf, .finite _ => true
  | .negInf, .posInf => true
  | .finite _, .posInf => true
  | _, _ => false

/-- Property access on an object (first binding wins). -/
def Json.lookup (o : List (String × Json)) (k : String) : Option Json :=
  (o.find? (fun p => p.1 = k)).map (fun p => p.2)

/-! ## OCR schema and normalizer (`menu-ai.ts`) -/

/-- A page record as produced by `coerceOcrPages` — `pageIndex` is still an
arbitrary number at this point; the schema validates it afterwards. -/
structure RawPage where
  pageIndex : Rat
  lines : List String
deriving Repr, DecidableEq

/-- Element-wise array parsing (zod `z.array(T)`): every element must parse. -/
def mapMOption {α β : Type} (f : α → Option β) : List α → Option (List β)
  | [] => some []
  | a :: l =>
      match f a with
      | none => none
      | some b => (mapMOption f l).map (fun bs => b :: bs)

/-- The zod check `z.number().int().min(0)`. -/
def isIntNonneg (q : Rat) : Bool :=
  q.den = 1 && decide (0 ≤ q)

/-- `OcrLineSchema` (`z.string()`). -/
def asOcrLine : Json → Option String
  | .str s => some s
  | _ => none

/-- `OcrPageSchema.safeParse`: an object with integer `pageIndex ≥ 0` and
string `lines`. -/
def ocrPageParse (j : Json) : Option RawPage :=
  match j with
  | .obj o =>
      match Json.lookup o "pageIndex", Json.lookup o "lines" with
      | some (.num q), some (.arr a) =>
          if isIntNonneg q then (mapMOption asOcrLine a).map (fun ls => ⟨q, ls⟩) else none
      | _, _ => none
  | _ => none

/-- `OcrResultSchema.safeParse`: an object whose `pages` is an array of valid
pages; `some` is a successful parse carrying the data. -/
def ocrSafeParse (j : Json) : Option (List RawPage) :=
  match j with
  | .obj o =>
      match Json.lookup o "pages" with
      | some (.arr a) => mapMOption ocrPageParse a
      | _ => none
  | _ => none

/-- The explicit index candidate of a page object: the first of `pageIndex`,
`index`, `page` whose value is a number. -/
def coerceExplicitIndex (o : List (String × Json)) : Option Rat :=
  match Json.lookup o "pageIndex" with
  | some (.num q) => some q
  | _ =>
    match Json.lookup o "index" with
    | some (.num q) => some q
    | _ =>
      match Json.lookup o "page" with
      | some (.num q) => some q
      | _ => none

/-- A page object's index: the explicit candidate when it is a non-negative
integer, else the fallback. -/
def coercePageIndex (o : List (String × Json)) (fallbackIndex : Rat) : Rat :=
  match coerceExplicitIndex o with
  | some q => if isIntNonneg q then q else fallbackIndex
  | none => fallbackIndex

/-- `pageRaw.lines ?? pageRaw.line ?? pageRaw.textLines` (nullish coalescing:
`null` and a missing key both fall through). -/
def coerceLinesValue (o : List (String × Json)) : Option Json :=
  match Json.lookup o "lines" with
  | some .null | none =>
      (match Json.lookup o "line" with
       | some .null | none => Json.lookup o "textLines"
       | v => v)
  | v => v

/-- The first of `text`, `content`, `pageText` whose value is a string. -/
def coerceTextValue (o : List (String × Json)) : Option String :=
  match Json.lookup o "text" with
  | some (.str s) => some s
  | _ =>
    match Json.lookup o "content" with
    | some (.str s) => some s
    | _ =>
      match Json.lookup o "pageText" with
      | some (.str s) => some s
      | _ => none

/-- The `coercePage` closure of `coerceOcrPages`. -/
def coercePage (pageRaw : Json) (fallbackIndex : Rat) : Option RawPage :=
  match pageRaw with
  | .str s => some ⟨fallbackIndex, normalizeTextToLines s⟩
  | .arr a => some ⟨fallbackIndex, stringifyLines a⟩
  | .obj o =>
      match coerceLinesValue o with
      | some (.arr a) => some ⟨coercePageIndex o fallbackIndex, stringifyLines a⟩
      | _ =>
        match coerceTextValue o with
        | some s => some ⟨coercePageIndex o fallbackIndex, normalizeTextToLines s⟩
        | none => none
  | _ => none

/-- `raw.forEach((entry, idx) => coercePage(entry, idx))` starting at `i`. -/
def coercePagesFrom (a : List Json) (i : Nat) : List RawPage :=
  match a with
  | [] => []
  | e :: rest =>
      match coercePage e (i : Rat) with
      | some p => p :: coercePagesFrom rest (i + 1)
      | none => coercePagesFrom rest (i + 1)

/-- The sort comparator over page-map keys: numeric difference when both keys
are numbers, else `localeCompare` (modelled as code-point order). -/
def jsKeyLt (a b : String) : Bool :=
  match jsNumberOfString a, jsNumberOfString b with
  | some x, some y => jsNumLt x y
  | _, _ => decide (a < b)

/-- Stable insertion: `x` goes before the first element not strictly below it. -/
def insertByKey (x : String × Json) : List (String × Json) → List (String × Json)
  | [] => [x]
  | y :: ys => if jsKeyLt y.1 x.1 then y :: insertByKey x ys else x :: y :: ys

/-- The stable `entries.sort(comparator)` of the page-map branch. -/
def sortEntries : List (String × Json) → List (String × Json)
  | [] => []
  | e :: rest => insertByKey e (sortEntries rest)

/-- `pageIndex` is a rational in this model; an infinite fallback index has
no rational counterpart and is mapped to a stand-in that, like infinity,
fails the schema's integer check — the only property of an infinite index
the pipeline can observe, since such a page is rejected by the final parse
before any output is produced. -/
def infiniteIndexStandIn : Rat := mkRat (-1) 2

/-- A page-map entry's fallback index: its numeric key, or its position after
sorting when the key is NaN. -/
def mapEntryFallback (k : String) (i : Nat) : Rat :=
  match jsNumberOfString k with
  | some (.finite q) => q
  | some _ => infiniteIndexStandIn
  | none => (i : Rat)

/-- The page-map branch of `coerceOcrPages`. -/
def coerceMapEntries (entries : List (String × Json)) (i : Nat) : List RawPage :=
  match entries with
  | [] => []
  | (k, v) :: rest =>
      match coercePage v (mapEntryFallback k i) with
      | some p => p :: coerceMapEntries rest (i + 1)
      | none => coerceMapEntries rest (i + 1)

/-- `isRecord(entry) || Array.isArray(entry)` — the per-entry test of the
`looksLikePages` probe. -/
def isPageLike (e : Json) : Bool :=
  match e with
  | .obj _ => true
  | .arr _ => true
  | _ => false

/-- The top-level array branch of `coerceOcrPages`: an array of page-like
entries, or a single page of stringified lines. -/
def coerceArrPages (a : List Json) : List RawPage :=
  if a.any isPageLike then coercePagesFrom a 0
  else [⟨0, stringifyLines a⟩]

/-- The `lines` / `text` fallback checks of `coerceOcrPages` on an object. -/
def coerceObjLinesText (o : List (String × Json)) : List RawPage :=
  match Json.lookup o "lines" with
  | some (.arr a) => [⟨0, stringifyLines a⟩]
  | _ =>
      match Json.lookup o "text" with
      | some (.str s) => [⟨0, normalizeTextToLines s⟩]
      | _ => []

/-- The object branch of `coerceOcrPages`: the `pages` key as array, map or
string, falling through to the `lines` / `text` checks otherwise. -/
def coerceObjPages (o : List (String × Json)) : List RawPage :=
  match Json.lookup o "pages" with
  | some (.arr a) => coercePagesFrom a 0
  | some (.obj entries) => coerceMapEntries (sortEntries entries) 0
  | some (.str s) => [⟨0, normalizeTextToLines s⟩]
  | _ => coerceObjLinesText o

/-- `coerceOcrPages`. -/
def coerceOcrPages (raw : Json) : List RawPage :=
  match raw with
  | .arr a => coerceArrPages a
  | .str s => [⟨0, normalizeTextToLines s⟩]
  | .obj o => coerceObjPages o
  | _ => []

/-- Unwrapping of `{result: ...}` / `{data: ...}` wrappers. -/
def unwrapResultData (raw : Json) : Json :=
  match raw with
  | .obj o =>
      match Json.lookup o "result" with
      | some v => v
      | none =>
        match Json.lookup o "data" with
        | some v => v
        | none => raw
  | _ => raw

/-- The final `OcrResultSchema.parse` check on a coerced page. -/
def pageSchemaOk (p : RawPage) : Bool :=
  isIntNonneg p.pageIndex

/-- `normalizeOcrResult`: direct parse, else unwrap and parse, else coerce and
validate; `.error` models the `ZodError` thrown by the final `parse`. -/
def normalizeOcrResult (raw : Json) : Except String (List RawPage) :=
  match ocrSafeParse raw with
  | some ps => .ok ps
  | none =>
    let unwrapped := unwrapResultData raw
    match ocrSafeParse unwrapped with
    | some ps => .ok ps
    | none =>
      let pages := coerceOcrPages unwrapped
      if pages.all pageSchemaOk then .ok pages
      else .error "OCR schema validation failed"

deriving instance DecidableEq for Except

/-! ## Trimming lemmas -/

theorem dropWhile_idem (p : Char → Bool) (l : List Char) :
    (l.dropWhile p).dropWhile p = l.dropWhile p := by
  induction l with
  | nil => rfl
  | cons a l ih =>
      by_cases h : p a = true
      · simp [List.dropWhile_cons, h, ih]
      · simp [List.dropWhile_cons, h]

theorem dropWhile_prefix_self (p : Char → Bool) {l₁ l₂ : List Char}
    (hpre : l₁ <+: l₂) (h : l₂.dropWhile p = l₂) : l₁.dropWhile p = l₁ := by
  cases l₁ with
  | nil => rfl
  | cons a t =>
      obtain ⟨tail, rfl⟩ := hpre
      have ha : p a = false := by
        by_contra hpa
        simp only [Bool.not_eq_false] at hpa
        rw [List.cons_append, List.dropWhile_cons, hpa] at h
        have hlen := congrArg List.length h
        have hle : ((t ++ tail).dropWhile p).length ≤ (t ++ tail).length :=
          List.Sublist.length_le (List.IsSuffix.sublist (List.dropWhile_suffix p))
        simp only [if_true, List.length_cons] at hlen
        omega
      simp [List.dropWhile_cons, ha]

theorem trimChars_idem (cs : List Char) : trimChars (trimChars cs) = trimChars cs := by
  unfold trimChars
  set p := isJsWhitespace with hp
  set y := cs.dropWhile p with hy
  set z := y.reverse.dropWhile p with hz
  have hyy : y.dropWhile p = y := dropWhile_idem p cs
  have hzpre : z.reverse <+: y := by
    obtain ⟨t, ht⟩ := List.dropWhile_suffix (l := y.reverse) p
    exact ⟨t.reverse, by rw [← List.reverse_append, ht, List.reverse_reverse]⟩
  have hA : z.reverse.dropWhile p = z.reverse := dropWhile_prefix_self p hzpre hyy
  have hB : z.dropWhile p = z := dropWhile_idem p y.reverse
  rw [hA, List.reverse_reverse, hB]

theorem jsTrim_idem (s : String) : jsTrim (jsTrim s) = jsTrim s := by
  unfold jsTrim
  have : (String.mk (trimChars s.data)).data = trimChars s.data := rfl
  rw [this, trimChars_idem]

/-- Every line kept by `stringifyLines` is trimmed and non-empty. -/
theorem mem_stringifyLines (a : List Json) :
    ∀ l ∈ stringifyLines a, jsTrim l = l ∧ l ≠ "" := by
  intro l hl
  unfold stringifyLines at hl
  obtain ⟨hmem, hlen⟩ := List.mem_filter.mp hl
  obtain ⟨x, _, rfl⟩ := List.mem_map.mp hmem
  refine ⟨jsTrim_idem x, ?_⟩
  intro hEq
  rw [hEq] at hlen
  simp at hlen

/-- Every line kept by `normalizeTextToLines` is trimmed and non-empty. -/
theorem mem_normalizeTextToLines (s : String) :
    ∀ l ∈ normalizeTextToLines s, jsTrim l = l ∧ l ≠ "" := by
  intro l hl
  unfold normalizeTextToLines at hl
  obtain ⟨hmem, hlen⟩ := List.mem_filter.mp hl
  obtain ⟨cs, _, rfl⟩ := List.mem_map.mp hmem
  constructor
  · unfold jsTrim
    have : (String.mk (trimChars cs)).data = trimChars cs := rfl
    rw [this, trimChars_idem]
  · intro hEq
    rw [hEq] at hlen
    simp at hlen

/-- Every line of a page produced by `coercePage` is trimmed and non-empty. -/
theorem coercePage_lines (e : Json) (fb : Rat) (p : RawPage)
    (h : coercePage e fb = some p) :
    ∀ l ∈ p.lines, jsTrim l = l ∧ l ≠ "" := by
  cases e with
  | str s =>
      simp only [coercePage, Option.some.injEq] at h
      rw [← h]
      exact mem_normalizeTextToLines s
  | arr a =>
      simp only [coercePage, Option.some.injEq] at h
      rw [← h]
      exact mem_stringifyLines a
  | obj o =>
      simp only [coercePage] at h
      split at h
      · simp only [Option.some.injEq] at h
        rw [← h]
        exact mem_stringifyLines _
      · split at h
        · simp only [Option.some.injEq] at h
          rw [← h]
          exact mem_normalizeTextToLines _
        · cases h
  | null => simp [coercePage] at h
  | bool b => simp [coercePage] at h
  | num q => simp [coercePage] at h

/-- Lines produced by the page-array branch are trimmed and non-empty. -/
theorem coercePagesFrom_lines (a : List Json) (i : Nat) :
    ∀ p ∈ coercePagesFrom a i, ∀ l ∈ p.lines, jsTrim l = l ∧ l ≠ "" := by
  induction a generalizing i with
  | nil => intro p hp; simp [coercePagesFrom] at hp
  | cons e rest ih =>
      intro p hp
      unfold coercePagesFrom at hp
      cases hc : coercePage e (i : Rat) with
      | some q =>
          rw [hc] at hp
          rcases List.mem_cons.mp hp with hEq | hmem
          · rw [hEq]; exact coercePage_lines e (i : Rat) q hc
          · exact ih (i + 1) p hmem
      | none =>
          rw [hc] at hp
          exact ih (i + 1) p hp

/-- Lines produced by the page-map branch are trimmed and non-empty. -/
theorem coerceMapEntries_lines (entries : List (String × Json)) (i : Nat) :
    ∀ p ∈ coerceMapEntries entries i, ∀ l ∈ p.lines, jsTrim l = l ∧ l ≠ "" := by
  induction entries generalizing i with
  | nil => intro p hp; simp [coerceMapEntries] at hp
  | cons kv rest ih =>
      intro p hp
      obtain ⟨k, v⟩ := kv
      unfold coerceMapEntries at hp
      cases hc : coercePage v (mapEntryFallback k i) with
      | some q =>
          rw [hc] at hp
          rcases List.mem_cons.mp hp with hEq | hmem
          · rw [hEq]; exact coercePage_lines v (mapEntryFallback k i) q hc
          · exact ih (i + 1) p hmem
      | none =>
          rw [hc] at hp
          exact ih (i + 1) p hp

/-- Every line of a page produced by the `lines`/`text` fallback is trimmed
and non-empty. -/
theorem coerceObjLinesText_lines (o : List (String × Json)) :
    ∀ p ∈ coerceObjLinesText o, ∀ l ∈ p.lines, jsTrim l = l ∧ l ≠ "" := by
  unfold coerceObjLinesText
  cases hln : Json.lookup o "lines" with
  | some w =>
      cases w with
      | arr a =>
          intro p hp
          simp only [List.mem_singleton] at hp
          rw [hp]; exact mem_stringifyLines a
      | _ =>
          cases htx : Json.lookup o "text" with
          | some u =>
              cases u with
              | str t =>
                  intro p hp
                  simp only [List.mem_singleton] at hp
                  rw [hp]; exact mem_normalizeTextToLines t
              | _ => intro p hp; simp at hp
          | none => intro p hp; simp at hp
  | none =>
      cases htx : Json.lookup o "text" with
      | some u =>
          cases u with
          | str t =>
              intro p hp
              simp only [List.mem_singleton] at hp
              rw [hp]; exact mem_normalizeTextToLines t
          | _ => intro p hp; simp at hp
      | none => intro p hp; simp at hp

/-- Every line of a page produced by the object branch is trimmed and
non-empty. -/
theorem coerceObjPages_lines (o : List (String × Json)) :
    ∀ p ∈ coerceObjPages o, ∀ l ∈ p.lines, jsTrim l = l ∧ l ≠ "" := by
  unfold coerceObjPages
  cases hpg : Json.lookup o "pages" with
  | some v =>
      cases v with
      | arr a => exact coercePagesFrom_lines a 0
      | obj entries => exact coerceMapEntries_lines (sortEntries entries) 0
      | str t =>
          intro p hp
          simp only [List.mem_singleton] at hp
          rw [hp]; exact mem_normalizeTextToLines t
      | null => exact coerceObjLinesText_lines o
      | bool b => exact coerceObjLinesText_lines o
      | num q => exact coerceObjLinesText_lines o
  | none => exact coerceObjLinesText_lines o

/-- Every line of every page produced by `coerceOcrPages` is trimmed and
non-empty. -/
theorem coerceOcrPages_lines (j : Json) :
    ∀ p ∈ coerceOcrPages j, ∀ l ∈ p.lines, jsTrim l = l ∧ l ≠ "" := by
  cases j with
  | str s =>
      intro p hp
      simp only [coerceOcrPages, List.mem_singleton] at hp
      rw [hp]
      exact mem_normalizeTextToLines s
  | arr a =>
      intro p hp
      simp only [coerceOcrPages, coerceArrPages] at hp
      split at hp
      · exact coercePagesFrom_lines a 0 p hp
      · simp only [List.mem_singleton] at hp
        rw [hp]
        exact mem_stringifyLines a
  | obj o => exact coerceObjPages_lines o
  | null => intro p hp; simp [coerceOcrPages] at hp
  | bool b => intro p hp; simp [coerceOcrPages] at hp
  | num q => intro p hp; simp [coerceOcrPages] at hp

/-- C7 (amended): every line of every page that `normalizeOcrResult` builds
through the coercion path — that is, whenever neither the input nor its
unwrapping already satisfies the OCR schema — is trimmed and non-empty.
(Inputs that already satisfy the schema are returned unchanged, lines
included.) -/
theorem normalizeOcrResult_coerced_lines_trimmed (raw : Json)
    (h1 : ocrSafeParse raw = none)
    (h2 : ocrSafeParse (unwrapResultData raw) = none)
    (ps : List RawPage) (hok : normalizeOcrResult raw = .ok ps) :
    ∀ p ∈ ps, ∀ l ∈ p.lines, jsTrim l = l ∧ l ≠ "" := by
  unfold normalizeOcrResult at hok
  rw [h1] at hok
  dsimp only [] at hok
  rw [h2] at hok
  dsimp only [] at hok
  split at hok
  · simp only [Except.ok.injEq] at hok
    rw [← hok]
    exact coerceOcrPages_lines (unwrapResultData raw)
  · cases hok

/-- Witness for the amended C7: a bare string with messy spacing is coerced
into trimmed, non-empty lines — instantiated at its first output line. -/
theorem normalizeOcrResult_coerced_lines_trimmed_witness :
    jsTrim "a" = "a" ∧ "a" ≠ "" :=
  normalizeOcrResult_coerced_lines_trimmed (.str "  a \n\n b ") (by decide) (by decide)
    [⟨0, ["a", "b"]⟩] (by decide) ⟨0, ["a", "b"]⟩ (by decide) "a" (by decide)

/-- Counterexample to C7 as stated: a schema-valid input whose line `" x "`
is neither trimmed nor (after trimming) equal to itself survives
`normalizeOcrResult` unchanged. -/
theorem normalizeOcrResult_untrimmed_passthrough :
    normalizeOcrResult
      (.obj [("pages", .arr [.obj [("pageIndex", .num 0), ("lines", .arr [.str " x ", .str ""])]])]) =
      .ok [⟨0, [" x ", ""]⟩] ∧
    jsTrim " x " ≠ " x " ∧ ("" : String) ∈ [" x ", ""] := by
  refine ⟨by decide, by decide, by decide⟩

/-- The canonical JSON rendering `{pageIndex, lines}` of one page. -/
def rawPageToJson (p : RawPage) : Json :=
  .obj [("pageIndex", .num p.pageIndex), ("lines", .arr (p.lines.map .str))]

/-- The canonical JSON rendering `{pages:[{pageIndex, lines}]}` of a page
list. -/
def ocrPagesToJson (ps : List RawPage) : Json :=
  .obj [("pages", .arr (ps.map rawPageToJson))]

theorem mapMOption_asOcrLine_str (ls : List String) :
    mapMOption asOcrLine (ls.map Json.str) = some ls := by
  induction ls with
  | nil => rfl
  | cons a l ih => simp [mapMOption, asOcrLine, ih]

theorem ocrPageParse_roundtrip (p : RawPage) (h : isIntNonneg p.pageIndex = true) :
    ocrPageParse (rawPageToJson p) = some p := by
  have hdef : ocrPageParse (rawPageToJson p) =
      if isIntNonneg p.pageIndex then
        (mapMOption asOcrLine (p.lines.map Json.str)).map (fun ls => ⟨p.pageIndex, ls⟩)
      else none := rfl
  rw [hdef, if_pos h, mapMOption_asOcrLine_str]
  rfl

theorem mapMOption_pages_roundtrip (ps : List RawPage)
    (h : ∀ p ∈ ps, isIntNonneg p.pageIndex = true) :
    mapMOption ocrPageParse (ps.map rawPageToJson) = some ps := by
  induction ps with
  | nil => rfl
  | cons p rest ih =>
      have hp : isIntNonneg p.pageIndex = true := h p (List.mem_cons_self p rest)
      have hrest := ih (fun q hq => h q (List.mem_cons_of_mem p hq))
      simp [mapMOption, ocrPageParse_roundtrip p hp, hrest]

theorem ocrSafeParse_roundtrip (ps : List RawPage)
    (h : ∀ p ∈ ps, isIntNonneg p.pageIndex = true) :
    ocrSafeParse (ocrPagesToJson ps) = some ps := by
  have hdef : ocrSafeParse (ocrPagesToJson ps) =
      mapMOption ocrPageParse (ps.map rawPageToJson) := rfl
  rw [hdef]
  exact mapMOption_pages_roundtrip ps h

/-- C6: `normalizeOcrResult` is the identity on canonical input — any value of
the exact shape `{pages:[{pageIndex, lines}]}` with integer `pageIndex ≥ 0`
and string `lines` is returned unchanged (the direct schema parse accepts
it). -/
theorem normalizeOcrResult_canonical_id (ps : List RawPage)
    (h : ∀ p ∈ ps, isIntNonneg p.pageIndex = true) :
    normalizeOcrResult (ocrPagesToJson ps) = .ok ps := by
  unfold normalizeOcrResult
  rw [ocrSafeParse_roundtrip ps h]

/-- Witness for C6 at a concrete canonical value. -/
theorem normalizeOcrResult_canonical_id_witness :
    normalizeOcrResult (ocrPagesToJson [⟨0, ["Nasi Goreng 25000", "Es Teh 8000"]⟩]) =
      .ok [⟨0, ["Nasi Goreng 25000", "Es Teh 8000"]⟩] :=
  normalizeOcrResult_canonical_id [⟨0, ["Nasi Goreng 25000", "Es Teh 8000"]⟩] (by decide)

/-! ## Totality of the normalizer (schema validity of coerced pages) -/

/-- Parsed `MenuItemSchema` data. -/
structure MenuItem where
  originalName : String
  nameEn : String
  nameRu : String
  priceValue : Option Int
  priceCurrency : String
  descriptionEn : Option String
  descriptionRu : Option String
  isSpicy : Bool
  approxCalories : Option Int
  isLocalSpecial : Bool
deriving Repr, DecidableEq

/-- Parsed `MenuCategorySchema` data. -/
structure MenuCategory where
  nameEn : String
  nameOriginal : Option String
  nameRu : String
  items : List MenuItem
deriving Repr, DecidableEq

/-- Parsed `StructuredMenuSchema` data. -/
structure StructuredMenu where
  categories : List MenuCategory
deriving Repr, DecidableEq

/-- `z.string().min(1)`: requires a present, non-empty string. -/
def parseNonEmptyString (v : Option Json) : Option String :=
  match v with
  | some (.str s) => if s.length ≥ 1 then some s else none
  | _ => none

/-- `z.number().int().min(0).nullable()`: `null` is allowed, a number must be
a non-negative integer, a missing key fails. -/
def parseNonnegIntOrNull (v : Option Json) : Option (Option Int) :=
  match v with
  | some .null => some none
  | some (.num q) => if isIntNonneg q then some (some q.num) else none
  | _ => none

/-- `z.string().default(d)`: a missing key yields the default, a present value
must be a string. -/
def parseStringDefault (d : String) (v : Option Json) : Option String :=
  match v with
  | none => some d
  | some (.str s) => some s
  | _ => none

/-- `z.string().nullable()`: `null` allowed, a missing key fails. -/
def parseStringOrNull (v : Option Json) : Option (Option String) :=
  match v with
  | some .null => some none
  | some (.str s) => some (some s)
  | _ => none

/-- `z.boolean().default(d)`. -/
def parseBoolDefault (d : Bool) (v : Option Json) : Option Bool :=
  match v with
  | none => some d
  | some (.bool b) => some b
  | _ => none

/-- `MenuItemSchema.safeParse`. -/
def menuItemParse (j : Json) : Option MenuItem :=
  match j with
  | .obj o => do
      let originalName ← parseNonEmptyString (Json.lookup o "originalName")
      let nameEn ← parseNonEmptyString (Json.lookup o "nameEn")
      let nameRu ← parseNonEmptyString (Json.lookup o "nameRu")
      let priceValue ← parseNonnegIntOrNull (Json.lookup o "priceValue")
      let priceCurrency ← parseStringDefault "IDR" (Json.lookup o "priceCurrency")
      let descriptionEn ← parseStringOrNull (Json.lookup o "descriptionEn")
      let descriptionRu ← parseStringOrNull (Json.lookup o "descriptionRu")
      let isSpicy ← parseBoolDefault false (Json.lookup o "isSpicy")
      let approxCalories ← parseNonnegIntOrNull (Json.lookup o "approxCalories")
      let isLocalSpecial ← parseBoolDefault false (Json.lookup o "isLocalSpecial")
      some ⟨originalName, nameEn, nameRu, priceValue, priceCurrency,
        descriptionEn, descriptionRu, isSpicy, approxCalories, isLocalSpecial⟩
  | _ => none

/-- `MenuCategorySchema.safeParse`. -/
def menuCategoryParse (j : Json) : Option MenuCategory :=
  match j with
  | .obj o => do
      let nameEn ← parseNonEmptyString (Json.lookup o "nameEn")
      let nameOriginal ← parseStringOrNull (Json.lookup o "nameOriginal")
      let nameRu ← parseNonEmptyString (Json.lookup o "nameRu")
      let itemsJson ← (match Json.lookup o "items" with
        | some (.arr a) => some a
        | _ => none)
      let items ← mapMOption menuItemParse itemsJson
      some ⟨nameEn, nameOriginal, nameRu, items⟩
  | _ => none

/-- `StructuredMenuSchema.safeParse`. -/
def menuSafeParse (j : Json) : Option StructuredMenu :=
  match j with
  | .obj o =>
      match Json.lookup o "categories" with
      | some (.arr a) => (mapMOption menuCategoryParse a).map (fun cs => ⟨cs⟩)
      | _ => none
  | _ => none

/-- Every field of a successfully parsed item is produced by that field's
own zod parser applied to that field's key. -/
theorem menuItemParse_field_sources (o : List (String × Json)) (it : MenuItem)
    (h : menuItemParse (.obj o) = some it) :
    parseStringDefault "IDR" (Json.lookup o "priceCurrency") = some it.priceCurrency ∧
    parseBoolDefault false (Json.lookup o "isSpicy") = some it.isSpicy ∧
    parseBoolDefault false (Json.lookup o "isLocalSpecial") = some it.isLocalSpecial := by
  unfold menuItemParse at h
  simp only [Option.bind_eq_bind, Option.bind_eq_some, Option.some.injEq] at h
  obtain ⟨a, ha, b, hb, c, hc, pv, hpv, pc, hpc, de, hde, dr, hdr, sp, hsp, ac, hac,
    ls, hls, hit⟩ := h
  subst hit
  exact ⟨hpc, hsp, hls⟩

/-- C9: the schema validators decide the documented examples and defaults —
a string `pageIndex` fails OCR validation; an empty `nameEn` category fails
menu validation; any item whose `priceValue` is `-1` fails; and an otherwise
valid item in which `priceCurrency`, `isSpicy` or `isLocalSpecial` is absent
parses with `"IDR"`, `false` or `false` filled in for that field. -/
theorem schema_examples :
    ocrSafeParse (.obj [("pages",
        .arr [.obj [("pageIndex", .str "0"), ("lines", .arr [])]])]) = none ∧
    menuSafeParse (.obj [("categories",
        .arr [.obj [("nameEn", .str ""), ("items", .arr [])]])]) = none ∧
    (∀ o : List (String × Json), Json.lookup o "priceValue" = some (.num (-1)) →
      menuItemParse (.obj o) = none) ∧
    (∀ (o : List (String × Json)) (it : MenuItem),
      Json.lookup o "priceCurrency" = none → menuItemParse (.obj o) = some it →
      it.priceCurrency = "IDR") ∧
    (∀ (o : List (String × Json)) (it : MenuItem),
      Json.lookup o "isSpicy" = none → menuItemParse (.obj o) = some it →
      it.isSpicy = false) ∧
    (∀ (o : List (String × Json)) (it : MenuItem),
      Json.lookup o "isLocalSpecial" = none → menuItemParse (.obj o) = some it →
      it.isLocalSpecial = false) := by
  refine ⟨by decide, by decide, ?_, ?_, ?_, ?_⟩
  · intro o h
    unfold menuItemParse
    simp only [h]
    have hneg : parseNonnegIntOrNull (some (Json.num (-1))) = none := by decide
    simp only [hneg]
    rcases parseNonEmptyString (Json.lookup o "originalName") with _ | a <;>
    rcases parseNonEmptyString (Json.lookup o "nameEn") with _ | b <;>
    rcases parseNonEmptyString (Json.lookup o "nameRu") with _ | c <;>
    simp
  · intro o it h hp
    have hsrc := (menuItemParse_field_sources o it hp).1
    rw [h] at hsrc
    have h2 : some "IDR" = some it.priceCurrency := hsrc
    injection h2 with h2
    exact h2.symm
  · intro o it h hp
    have hsrc := (menuItemParse_field_sources o it hp).2.1
    rw [h] at hsrc
    have h2 : some false = some it.isSpicy := hsrc
    injection h2 with h2
    exact h2.symm
  · intro o it h hp
    have hsrc := (menuItemParse_field_sources o it hp).2.2
    rw [h] at hsrc
    have h2 : some false = some it.isLocalSpecial := hsrc
    injection h2 with h2
    exact h2.symm

def itemNoCurrencyObj : List (String × Json) :=
  [("originalName", .str "Nasi Goreng"), ("nameEn", .str "Fried Rice"),
   ("nameRu", .str "Nasi"), ("priceValue", .num 25000), ("descriptionEn", .null),
   ("descriptionRu", .null), ("isSpicy", .bool true),
   ("approxCalories", .null), ("isLocalSpecial", .bool true)]

def itemNoCurrency : MenuItem :=
  ⟨"Nasi Goreng", "Fried Rice", "Nasi", some 25000, "IDR", none, none, true, none, true⟩

def itemNoSpicyObj : List (String × Json) :=
  [("originalName", .str "Es Teh"), ("nameEn", .str "Iced Tea"),
   ("nameRu", .str "Tea"), ("priceValue", .num 8000),
   ("priceCurrency", .str "USD"), ("descriptionEn", .null),
   ("descriptionRu", .null), ("approxCalories", .null),
   ("isLocalSpecial", .bool true)]

def itemNoSpicy : MenuItem :=
  ⟨"Es Teh", "Iced Tea", "Tea", some 8000, "USD", none, none, false, none, true⟩

def itemNoLocalObj : List (String × Json) :=
  [("originalName", .str "Soto"), ("nameEn", .str "Soup"),
   ("nameRu", .str "Soup"), ("priceValue", .num 12000),
   ("priceCurrency", .str "USD"), ("descriptionEn", .null),
   ("descriptionRu", .null), ("isSpicy", .bool true),
   ("approxCalories", .null)]

def itemNoLocal : MenuItem :=
  ⟨"Soto", "Soup", "Soup", some 12000, "USD", none, none, true, none, false⟩

/-- Witness for C9's quantified parts: items in which exactly one of the
defaulted fields is absent. -/
theorem schema_examples_witness :
    menuItemParse (.obj [("priceValue", Json.num (-1))]) = none ∧
    itemNoCurrency.priceCurrency = "IDR" ∧
    itemNoSpicy.isSpicy = false ∧
    itemNoLocal.isLocalSpecial = false :=
  ⟨schema_examples.2.2.1 [("priceValue", Json.num (-1))] rfl,
   schema_examples.2.2.2.1 itemNoCurrencyObj itemNoCurrency rfl (by decide),
   schema_examples.2.2.2.2.1 itemNoSpicyObj itemNoSpicy rfl (by decide),
   schema_examples.2.2.2.2.2 itemNoLocalObj itemNoLocal rfl (by decide)⟩

/-! ## JSON recovery parser (`parseModelJson`) -/

/-- `content.indexOf('\x7b')` as an optional position. -/
def firstBraceIdx (s : String) : Option Nat :=
  s.data.findIdx? (fun c => c = '{')

/-- `content.lastIndexOf('\x7d')` as an optional position. -/
def lastBraceIdx (s : String) : Option Nat :=
  match s.data.reverse.findIdx? (fun c => c = '}') with
  | some k => some (s.data.length - 1 - k)
  | none => none

/-- `content.slice(a, b)` for the in-range indices the parser uses. -/
def jsSlice (s : String) (a b : Nat) : String :=
  String.mk ((s.data.drop a).take (b - a))

/-- `parseModelJson`, parametric in the platform's `JSON.parse`: direct parse,
else the substring from the first brace to the last, else an error carrying
the original parse error's message. -/
def parseModelJson (jsonParse : String → Except String Json) (content : String) :
    Except String Json :=
  match jsonParse content with
  | .ok v => .ok v
  | .error err =>
      match firstBraceIdx content, lastBraceIdx content with
      | some fb, some lb =>
          if lb > fb then
            match jsonParse (jsSlice content fb (lb + 1)) with
            | .ok v => .ok v
            | .error _ => .error ("Failed to parse model JSON: " ++ err)
          else .error ("Failed to parse model JSON: " ++ err)
      | _, _ => .error ("Failed to parse model JSON: " ++ err)

/-- C8: `parseModelJson` returns the direct parse when the whole string
parses; otherwise the parse of the first-`\x7b`-to-last-`\x7d` substring when
that exists and parses; and otherwise an error whose message carries the
original parse error's message. -/
theorem parseModelJson_spec (jsonParse : String → Except String Json) (content : String) :
    (∀ v, jsonParse content = .ok v → parseModelJson jsonParse content = .ok v) ∧
    (∀ err fb lb v, jsonParse content = .error err →
      firstBraceIdx content = some fb → lastBraceIdx content = some lb → lb > fb →
      jsonParse (jsSlice content fb (lb + 1)) = .ok v →
      parseModelJson jsonParse content = .ok v) ∧
    (∀ err, jsonParse content = .error err →
      (∀ fb lb, firstBraceIdx content = some fb → lastBraceIdx content = some lb →
        lb > fb → ∀ w, jsonParse (jsSlice content fb (lb + 1)) ≠ .ok w) →
      parseModelJson jsonParse content = .error ("Failed to parse model JSON: " ++ err)) := by
  refine ⟨?_, ?_, ?_⟩
  · intro v hv
    unfold parseModelJson
    rw [hv]
  · intro err fb lb v herr hfb hlb hgt hcand
    unfold parseModelJson
    rw [herr, hfb, hlb]
    dsimp only
    rw [if_pos hgt, hcand]
  · intro err herr hno
    unfold parseModelJson
    rw [herr]
    cases hfb : firstBraceIdx content with
    | none => rfl
    | some fb =>
        cases hlb : lastBraceIdx content with
        | none => rfl
        | some lb =>
            dsimp only
            by_cases hgt : lb > fb
            · rw [if_pos hgt]
              cases hcand : jsonParse (jsSlice content fb (lb + 1)) with
              | ok w => exact absurd hcand (hno fb lb hfb hlb hgt w)
              | error e2 => rfl
            · rw [if_neg hgt]

/-- Witness for C8: a reply wrapped in prose parses through the brace
substring. -/
theorem parseModelJson_spec_witness :
    parseModelJson
      (fun s => if s = "{}" then .ok (.obj []) else .error "Unexpected token")
      "json: {}" = .ok (.obj []) :=
  (parseModelJson_spec
      (fun s => if s = "{}" then .ok (.obj []) else .error "Unexpected token")
      "json: {}").2.1
    "Unexpected token" 6 7 (.obj []) rfl (by decide) (by decide) (by decide) rfl

/-! ## Retry controllers and orchestrator (`runOcrWithRetry`,
`runStructuredMenuWithRetry`, `processMenuDigitization`) -/

/-- The failure kinds a gateway call can raise: `OpenRouterRequestError`
carrying its HTTP status, `OpenRouterVisionError`, `OpenRouterTextError`, or
any other error. -/
inductive OrFailure where
  | request (status : Int)
  | visionEmpty
  | textEmpty
  | other
deriving Repr, DecidableEq

/-- The retriability test of `runOcrWithRetry`:
`error instanceof OpenRouterRequestError ? error.status >= 500 ||
error.status === 429 : error instanceof OpenRouterVisionError`. -/
def isOcrRetriable (e : OrFailure) : Bool :=
  match e with
  | .request s => s ≥ 500 || s = 429
  | .visionEmpty => true
  | _ => false

/-- The `for` loop of `runOcrWithRetry`, with the gateway modelled as a
per-attempt outcome function; returns the outcome and the number of gateway
calls made.  `fuel` is the number of remaining loop iterations; the fuel-0
case is the unreachable post-loop `throw lastError`. -/
def runOcrLoop {α : Type} (gw : Nat → Except OrFailure α) (maxAttempts attempt : Nat)
    (lastError : Option OrFailure) (fuel : Nat) : Except OrFailure α × Nat :=
  match fuel with
  | 0 => (.error (lastError.getD .other), 0)
  | fuel + 1 =>
      match gw attempt with
      | .ok v => (.ok v, 1)
      | .error e =>
          if isOcrRetriable e = true ∧ attempt < maxAttempts - 1 then
            let r := runOcrLoop gw maxAttempts (attempt + 1) (some e) fuel
            (r.1, r.2 + 1)
          else (.error e, 1)

/-- `runOcrWithRetry` with `MAX_ATTEMPTS = 2`. -/
def runOcrWithRetry {α : Type} (gw : Nat → Except OrFailure α) :
    Except OrFailure α × Nat :=
  runOcrLoop gw 2 0 none 2

/-- C3: the OCR stage makes at most 2 gateway calls; a first-call failure is
retried exactly when it is a request failure with status ≥ 500 or 429 or a
vision-empty failure (then the second call's outcome is final, 2 calls); any
other failure aborts after exactly 1 call; and the two concrete scenarios —
500-then-success succeeds with exactly 2 calls, always-500 raises after
exactly 2 calls. -/
theorem runOcrWithRetry_spec {α : Type} (gw : Nat → Except OrFailure α) :
    (∀ e, isOcrRetriable e = true ↔
      ((∃ s : Int, e = .request s ∧ (s ≥ 500 ∨ s = 429)) ∨ e = .visionEmpty)) ∧
    ((runOcrWithRetry gw).2 ≤ 2) ∧
    (∀ v, gw 0 = .ok v → runOcrWithRetry gw = (.ok v, 1)) ∧
    (∀ e, gw 0 = .error e → isOcrRetriable e = false → runOcrWithRetry gw = (.error e, 1)) ∧
    (∀ e, gw 0 = .error e → isOcrRetriable e = true → runOcrWithRetry gw = (gw 1, 2)) ∧
    (∀ v : α, runOcrWithRetry
        (fun n => if n = 0 then .error (.request 500) else .ok v) = (.ok v, 2)) ∧
    (runOcrWithRetry (fun _ => (.error (.request 500) : Except OrFailure α)) =
      (.error (.request 500), 2)) := by
  refine ⟨?_, ?_, ?_, ?_, ?_, ?_, ?_⟩
  · intro e
    cases e with
    | request s =>
        simp only [isOcrRetriable, Bool.or_eq_true, decide_eq_true_eq]
        constructor
        · rintro (h | h)
          · exact Or.inl ⟨s, rfl, Or.inl h⟩
          · exact Or.inl ⟨s, rfl, Or.inr h⟩
        · rintro (⟨s', hs, h | h⟩ | h)
          · cases hs; exact Or.inl h
          · cases hs; exact Or.inr h
          · cases h
    | visionEmpty => simp [isOcrRetriable]
    | textEmpty => simp [isOcrRetriable]
    | other => simp [isOcrRetriable]
  · unfold runOcrWithRetry runOcrLoop
    cases gw 0 with
    | ok v => simp
    | error e =>
        dsimp only
        by_cases hr : isOcrRetriable e = true ∧ (0 : Nat) < 2 - 1
        · rw [if_pos hr]
          dsimp only
          simp only [runOcrLoop]
          cases gw 1 <;> simp
        · rw [if_neg hr]
          simp
  · intro v hv
    unfold runOcrWithRetry runOcrLoop
    rw [hv]
  · intro e he hr
    unfold runOcrWithRetry runOcrLoop
    rw [he]
    dsimp only
    rw [if_neg (by simp [hr])]
  · intro e he hr
    unfold runOcrWithRetry runOcrLoop
    rw [he]
    dsimp only
    rw [if_pos ⟨hr, by omega⟩]
    simp only [runOcrLoop]
    cases hg1 : gw 1 with
    | ok v => simp
    | error e2 => simp [if_neg (show ¬(isOcrRetriable e2 = true ∧ (1:Nat) < 2 - 1) by omega)]
  · intro v
    simp [runOcrWithRetry, runOcrLoop, isOcrRetriable]
  · simp [runOcrWithRetry, runOcrLoop, isOcrRetriable]

/-- Witness for C3's quantified parts at concrete gateways. -/
theorem runOcrWithRetry_spec_witness :
    runOcrWithRetry (fun _ => (.ok "c" : Except OrFailure String)) = (.ok "c", 1) ∧
    runOcrWithRetry (fun _ => (.error .textEmpty : Except OrFailure String)) =
      (.error .textEmpty, 1) ∧
    runOcrWithRetry (fun _ => (.error .visionEmpty : Except OrFailure String)) =
      (.error .visionEmpty, 2) :=
  ⟨(runOcrWithRetry_spec (fun _ => (.ok "c" : Except OrFailure String))).2.2.1 "c" rfl,
   (runOcrWithRetry_spec (fun _ => (.error .textEmpty : Except OrFailure String))).2.2.2.1
     .textEmpty rfl (by decide),
   (runOcrWithRetry_spec (fun _ => (.error .visionEmpty : Except OrFailure String))).2.2.2.2.1
     .visionEmpty rfl (by decide)⟩

/-- Failures of one structuring attempt: a gateway-level error propagating out
of `structureMenuData`, a parse failure, or a schema-validation failure. -/
inductive StructErr where
  | gateway (e : OrFailure)
  | parse (msg : String)
  | validation
deriving Repr, DecidableEq

/-- The body of the `try` block of `runStructuredMenuWithRetry`:
`parseModelJson` then `StructuredMenuSchema.parse` on the call's content. -/
def structureAttempt (jp : String → Except String Json) (content : String) :
    Except StructErr StructuredMenu :=
  match parseModelJson jp content with
  | .error msg => .error (.parse msg)
  | .ok j =>
      match menuSafeParse j with
      | some m => .ok m
      | none => .error .validation

/-- The `for` loop of `runStructuredMenuWithRetry`.  The gateway call sits
outside the `try`: its failure propagates immediately (after counting the
call); parse/validation failures retry while attempts remain. -/
def runStructuredLoop (gws : Nat → Except OrFailure String)
    (jp : String → Except String Json) (maxAttempts attempt : Nat)
    (lastError : Option StructErr) (fuel : Nat) :
    Except StructErr StructuredMenu × Nat :=
  match fuel with
  | 0 => (.error (lastError.getD (.parse "Failed to parse structured menu response")), 0)
  | fuel + 1 =>
      match gws attempt with
      | .error e => (.error (.gateway e), 1)
      | .ok content =>
          match structureAttempt jp content with
          | .ok m => (.ok m, 1)
          | .error pe =>
              if attempt < maxAttempts - 1 then
                let r := runStructuredLoop gws jp maxAttempts (attempt + 1) (some pe) fuel
                (r.1, r.2 + 1)
              else (.error pe, 1)

/-- `runStructuredMenuWithRetry` with `MAX_ATTEMPTS = 2`. -/
def runStructuredMenuWithRetry (gws : Nat → Except OrFailure String)
    (jp : String → Except String Json) : Except StructErr StructuredMenu × Nat :=
  runStructuredLoop gws jp 2 0 none 2

/-- The orchestrator's terminal failure kinds. -/
inductive PipeErr where
  | ocrGateway (e : OrFailure)
  | ocrParse (msg : String)
  | ocrValidation (msg : String)
  | structuring (e : StructErr)
deriving Repr, DecidableEq

/-- `processMenuDigitization`: OCR with retry, then one pass of the OCR-side
parse / normalize / validate stages, then the structuring stage with retry.
Returns the outcome together with the number of OCR gateway calls, the number
of passes through the OCR-side parse/normalize/validate stages (the source
runs them exactly once after a successful OCR stage), and the number of
structuring gateway calls. -/
def processMenuDigitization (jp : String → Except String Json)
    (gwOcr gwStruct : Nat → Except OrFailure String) :
    Except PipeErr StructuredMenu × Nat × Nat × Nat :=
  match runOcrWithRetry gwOcr with
  | (.error e, nOcr) => (.error (.ocrGateway e), nOcr, 0, 0)
  | (.ok content, nOcr) =>
      match parseModelJson jp content with
      | .error msg => (.error (.ocrParse msg), nOcr, 1, 0)
      | .ok ocrJson =>
          match normalizeOcrResult ocrJson with
          | .error zmsg => (.error (.ocrValidation zmsg), nOcr, 1, 0)
          | .ok _pages =>
              match runStructuredMenuWithRetry gwStruct jp with
              | (.ok m, nStruct) => (.ok m, nOcr, 1, nStruct)
              | (.error se, nStruct) => (.error (.structuring se), nOcr, 1, nStruct)

/-- C4 (amended): the structuring gateway call is made at most 2 times per
run and is repeated only when its content fails JSON recovery or schema
validation; a request-level failure from the call itself is never retried —
exactly 1 call before the orchestrator raises; and the OCR-side parse,
normalize and validate stages run exactly once after a successful OCR stage —
a failure there aborts immediately with no structuring call (they are not
retried). -/
theorem runStructuredMenuWithRetry_spec (jp : String → Except String Json)
    (gws : Nat → Except OrFailure String) :
    ((runStructuredMenuWithRetry gws jp).2 ≤ 2) ∧
    (∀ e, gws 0 = .error e →
      runStructuredMenuWithRetry gws jp = (.error (.gateway e), 1)) ∧
    (∀ content m, gws 0 = .ok content → structureAttempt jp content = .ok m →
      runStructuredMenuWithRetry gws jp = (.ok m, 1)) ∧
    (∀ content pe, gws 0 = .ok content → structureAttempt jp content = .error pe →
      runStructuredMenuWithRetry gws jp =
        ((match gws 1 with
          | .error e => .error (.gateway e)
          | .ok c2 => structureAttempt jp c2), 2)) ∧
    (∀ (gwo gws2 : Nat → Except OrFailure String) (content : String) (nOcr : Nat)
        (msg : String),
      runOcrWithRetry gwo = (.ok content, nOcr) →
      parseModelJson jp content = .error msg →
      processMenuDigitization jp gwo gws2 = (.error (.ocrParse msg), nOcr, 1, 0)) ∧
    (∀ (gwo gws2 : Nat → Except OrFailure String) (content : String) (nOcr : Nat)
        (j : Json) (zmsg : String),
      runOcrWithRetry gwo = (.ok content, nOcr) →
      parseModelJson jp content = .ok j → normalizeOcrResult j = .error zmsg →
      processMenuDigitization jp gwo gws2 = (.error (.ocrValidation zmsg), nOcr, 1, 0)) := by
  refine ⟨?_, ?_, ?_, ?_, ?_, ?_⟩
  · unfold runStructuredMenuWithRetry runStructuredLoop
    cases gws 0 with
    | error e => simp
    | ok content =>
        dsimp only
        cases structureAttempt jp content with
        | ok m => simp
        | error pe =>
            dsimp only
            rw [if_pos (by omega)]
            simp only [runStructuredLoop]
            cases gws 1 with
            | error e => simp
            | ok c2 =>
                dsimp only
                cases structureAttempt jp c2 with
                | ok m => simp
                | error pe2 =>
                    dsimp only
                    rw [if_neg (by omega)]
  · intro e he
    unfold runStructuredMenuWithRetry runStructuredLoop
    rw [he]
  · intro content m hc hm
    unfold runStructuredMenuWithRetry runStructuredLoop
    rw [hc]
    dsimp only
    rw [hm]
  · intro content pe hc hpe
    unfold runStructuredMenuWithRetry runStructuredLoop
    rw [hc]
    dsimp only
    rw [hpe]
    dsimp only
    rw [if_pos (by omega)]
    simp only [runStructuredLoop]
    cases hg1 : gws 1 with
    | error e => simp
    | ok c2 =>
        dsimp only
        cases hpe2 : structureAttempt jp c2 with
        | ok m => simp
        | error e2 =>
            dsimp only
            rw [if_neg (by omega)]
  · intro gwo gws2 content nOcr msg hocr hparse
    unfold processMenuDigitization
    rw [hocr]
    dsimp only
    rw [hparse]
  · intro gwo gws2 content nOcr j zmsg hocr hparse hnorm
    unfold processMenuDigitization
    rw [hocr]
    dsimp only
    rw [hparse]
    dsimp only
    rw [hnorm]

def jpC4 : String → Except String Json := fun _ => .error "Unexpected token"

def gwOcrBadContent : Nat → Except OrFailure String := fun _ => .ok "not json"

def gwStructC4 : Nat → Except OrFailure String := fun _ => .ok "irrelevant"

/-- Counterexample to C4 as stated: when the OCR content fails JSON recovery,
stages (b)-(d) are not retried under the structuring budget — the pipeline
raises after a single pass through them (pass count 1, not 2) and zero
structuring gateway calls. -/
theorem processMenuDigitization_no_ocr_side_retry :
    processMenuDigitization jpC4 gwOcrBadContent gwStructC4 =
      (.error (.ocrParse "Failed to parse model JSON: Unexpected token"), 1, 1, 0) ∧
    (processMenuDigitization jpC4 gwOcrBadContent gwStructC4).2.2.1 ≠ 2 ∧
    (processMenuDigitization jpC4 gwOcrBadContent gwStructC4).2.2.2 = 0 := by
  refine ⟨by decide, by decide, by decide⟩

def jpC4w : String → Except String Json := fun s =>
  if s = "MENU" then .ok (.obj [("categories", .arr [])]) else .error "bad"

/-- Witness for C4's quantified parts at concrete gateways. -/
theorem runStructuredMenuWithRetry_spec_witness :
    runStructuredMenuWithRetry (fun _ => .error (.request 400)) jpC4w =
      (.error (.gateway (.request 400)), 1) ∧
    runStructuredMenuWithRetry (fun _ => .ok "MENU") jpC4w =
      (.ok ⟨[]⟩, 1) ∧
    runStructuredMenuWithRetry (fun _ => .ok "oops") jpC4w =
      (.error (.parse "Failed to parse model JSON: bad"), 2) ∧
    processMenuDigitization jpC4w (fun _ => .ok "oops") gwStructC4 =
      (.error (.ocrParse "Failed to parse model JSON: bad"), 1, 1, 0) := by
  refine ⟨(runStructuredMenuWithRetry_spec jpC4w (fun _ => .error (.request 400))).2.1
      (.request 400) rfl,
    (runStructuredMenuWithRetry_spec jpC4w (fun _ => .ok "MENU")).2.2.1
      "MENU" ⟨[]⟩ rfl (by decide),
    ?_, ?_⟩
  · have h := (runStructuredMenuWithRetry_spec jpC4w (fun _ => .ok "oops")).2.2.2.1
      "oops" (.parse "Failed to parse model JSON: bad") rfl (by decide)
    rw [h]
    decide
  · exact (runStructuredMenuWithRetry_spec jpC4w gwStructC4).2.2.2.2.1
      (fun _ => .ok "oops") gwStructC4 "oops" 1 "Failed to parse model JSON: bad"
      (by decide) rfl
